import Mathlib

/-!
Verification of the cross-platform process-spawning library
(files src/process.c, src/process_windows.c): a shallow embedding of the
POSIX backend and the Windows backend, together with proofs about it.

Strings and byte buffers are modelled as lists of characters.  OS calls
(pipe, fork, poll, read, write, waitpid, CreatePipe, ReadFile, WriteFile,
WaitForSingleObject, ...) are modelled by explicit oracle values describing
the outcome of each call, and the functions of the library are translated
as pure functions of those oracles, mirroring the C control flow.
-/

/-- The double-quote character (codepoint 34). -/
def qch : Char := Char.ofNat 34

/-- The backslash character (codepoint 92). -/
def bsl : Char := Char.ofNat 92

/-- The space character. -/
def spc : Char := Char.ofNat 32

/-- The horizontal tab character. -/
def tabc : Char := Char.ofNat 9

/-- The newline character. -/
def nlc : Char := Char.ofNat 10

/-- The vertical tab character. -/
def vtc : Char := Char.ofNat 11

/-- The NUL character, used as the string terminator written by the reads. -/
def nulc : Char := Char.ofNat 0

/-- Number of leading backslashes of a character list (the inner
counting loop of quote_argument in process_windows.c). -/
def countBS : List Char → Nat
  | [] => 0
  | c :: t => if c = bsl then countBS t + 1 else 0

/-- The body of the while loop of quote_argument (process_windows.c,
lines 29-60): the first argument is the number of consecutive backslashes
counted so far.  At the end of the token the pending run is doubled; a
run followed by a literal quote is doubled and the quote is emitted with
one extra escaping backslash; a run followed by any other character is
copied as is, and so is the character. -/
def quoteRun : Nat → List Char → List Char
  | k, [] => List.replicate (2 * k) bsl
  | k, c :: t =>
    if c = bsl then quoteRun (k + 1) t
    else if c = qch then List.replicate (2 * k + 1) bsl ++ qch :: quoteRun 0 t
    else List.replicate k bsl ++ c :: quoteRun 0 t

/-- The quoted body of a token, i.e. everything quote_argument writes
between the opening and the closing double quote. -/
def quoteBody (s : List Char) : List Char := quoteRun 0 s

/-- quote_argument (process_windows.c, lines 24-64): the token wrapped in
double quotes with the escaping performed by quoteRun. -/
def quote_argument (s : List Char) : List Char := qch :: quoteBody s ++ [qch]

/-- needs_quoting (process_windows.c, lines 14-21): a token needs quoting
iff it contains a space, tab, newline or vertical tab, or is empty. -/
def needs_quoting (s : List Char) : Bool :=
  s.contains spc || s.contains tabc || s.contains nlc || s.contains vtc || s.isEmpty

/-- One token as emitted by create_command_line_ex: quoted when
needs_quoting holds, copied verbatim otherwise. -/
def emitToken (s : List Char) : List Char :=
  if needs_quoting s then quote_argument s else s

/-- create_command_line_ex (process_windows.c, lines 67-117): the command
token followed by each argument token, each preceded by one space. -/
def create_command_line_ex (cmd : List Char) (args : List (List Char)) : List Char :=
  emitToken cmd ++ (args.map fun a => spc :: emitToken a).flatten

/-- The platform's standard command-line argument splitting rule
(the documented CommandLineToArgvW / C runtime rule), as a state machine:
inQ is the in-quotes flag, started records that a token is open, k is the
number of pending backslashes, cur the token accumulated so far.
2n backslashes before a quote collapse to n and the quote toggles the
in-quotes mode; 2n+1 backslashes before a quote collapse to n plus a
literal quote; backslashes not before a quote are literal; space and tab
outside quotes end the token. -/
def splitAux : Bool → Bool → Nat → List Char → List Char → List (List Char)
  | _, started, k, cur, [] =>
    if started then [cur ++ List.replicate k bsl] else []
  | inQ, started, k, cur, c :: t =>
    if c = bsl then splitAux inQ true (k + 1) cur t
    else if c = qch then
      if k % 2 = 1 then splitAux inQ true 0 (cur ++ List.replicate (k / 2) bsl ++ [qch]) t
      else splitAux (!inQ) true 0 (cur ++ List.replicate (k / 2) bsl) t
    else if inQ = false ∧ (c = spc ∨ c = tabc) then
      (if started then [cur ++ List.replicate k bsl] else []) ++ splitAux false false 0 [] t
    else splitAux inQ true 0 (cur ++ List.replicate k bsl ++ [c]) t

/-- Split a full command line into its argument tokens by the standard
Windows rule. -/
def winSplit (s : List Char) : List (List Char) := splitAux false false 0 [] s

/-- Model of read(2)/ReadFile writing n bytes at the start of the caller's
buffer: the bytes land at indices 0..n-1, the rest of the buffer keeps its
previous contents. -/
def writeBytes (buffer data : List Char) : List Char :=
  data ++ buffer.drop data.length

/-- Model of the statement buffer[i] = the NUL terminator.  Writing past the
end of the buffer is out of bounds in C; the model leaves the buffer
unchanged in that case (the affected path returns a negative count, about
which the specification asserts nothing). -/
def setNul (buffer : List Char) (i : Nat) : List Char :=
  if i < buffer.length then buffer.set i nulc else buffer

/-- Teardown events, shared by both backends, in the order close_process
performs them. -/
inductive CloseEv where
  | closeIn : CloseEv
  | closeOut : CloseEv
  | closeErr : CloseEv
  | waitChild : CloseEv
  | terminate : CloseEv
  | waitBounded : Nat → CloseEv
  | closeProc : CloseEv
deriving DecidableEq

namespace Posix

/-- ProcessHandle (process.h / process.c): pid plus the three parent-side
pipe descriptors. -/
structure ProcessHandle where
  pid : Int
  input_fd : Int
  output_fd : Int
  error_fd : Int
deriving DecidableEq

/-- Outcomes of the OS calls made by the POSIX start_process, in program
order: the three pipe(2) calls, fork(2), and the malloc of the handle. -/
structure SpawnEnv where
  pipe1 : Bool
  pipe2 : Bool
  pipe3 : Bool
  forkOk : Bool
  mallocOk : Bool
deriving DecidableEq

/-- start_process (process.c, lines 12-77), parent side.  Descriptors are
numbered in allocation order: child_stdin = (0,1), child_stdout = (2,3),
child_stderr = (4,5).  The second component is the list of descriptors
allocated by this call that are still open when it returns.  The C code
returns NULL as soon as one pipe(2) call fails, without closing the pipes
already allocated, and likewise on fork failure; only the malloc-failure
path closes the parent-side descriptors. -/
def start_process (e : SpawnEnv) : Option ProcessHandle × List Nat :=
  if ¬ e.pipe1 then (none, [])
  else if ¬ e.pipe2 then (none, [0, 1])
  else if ¬ e.pipe3 then (none, [0, 1, 2, 3])
  else if ¬ e.forkOk then (none, [0, 1, 2, 3, 4, 5])
  else
    -- parent branch: child ends 0, 3, 5 are closed first
    if ¬ e.mallocOk then (none, [])
    else (some ⟨100, 1, 2, 4⟩, [1, 2, 4])

/-- close_process (process.c, lines 79-92): close each valid descriptor in
order, then block in waitpid(pid, NULL, 0). -/
def close_process (h : Option ProcessHandle) : List CloseEv :=
  match h with
  | none => []
  | some h =>
    (if 0 ≤ h.input_fd then [CloseEv.closeIn] else []) ++
    (if 0 ≤ h.output_fd then [CloseEv.closeOut] else []) ++
    (if 0 ≤ h.error_fd then [CloseEv.closeErr] else []) ++
    [CloseEv.waitChild]

/-- The observable state of the single child process in the parent's
process table. -/
inductive ChildState where
  | running : ChildState
  | zombie : ChildState
  | reaped : ChildState
deriving DecidableEq

/-- waitpid(pid, &status, WNOHANG): returns 0 while the child runs,
returns the pid and consumes (reaps) the exit status when the child has
exited, and fails with -1 (ECHILD) when the status was already consumed. -/
def waitpid_nohang : ChildState → Int × ChildState
  | ChildState.running => (0, ChildState.running)
  | ChildState.zombie => (100, ChildState.reaped)
  | ChildState.reaped => (-1, ChildState.reaped)

/-- waitpid(pid, NULL, 0) as performed by close_process: blocks until the
child exits and reaps it; fails with -1 if the status was already
consumed. -/
def waitpid_block : ChildState → Int × ChildState
  | ChildState.running => (100, ChildState.reaped)
  | ChildState.zombie => (100, ChildState.reaped)
  | ChildState.reaped => (-1, ChildState.reaped)

/-- is_running (process.c, lines 94-107): NULL handle yields 0; otherwise
probe with waitpid WNOHANG and map result 0 to 1 (running), anything else
to 0.  The second component is the child state after the probe. -/
def is_running (h : Option ProcessHandle) (st : ChildState) : Int × ChildState :=
  match h with
  | none => (0, st)
  | some _ =>
    let r := waitpid_nohang st
    (if r.1 = 0 then 1 else 0, r.2)

/-- One outcome of a write(2) call inside the write loop. -/
inductive WriteRes where
  | ok : Nat → WriteRes
  | eintr : WriteRes
  | err : WriteRes
deriving DecidableEq

/-- The while loop of write_to_process (process.c, lines 113-120) over a
trace of write(2) outcomes.  none means the trace ended while the loop
still had bytes to write (the modelled run does not terminate within the
trace); some (r, fl) means the call returns r, with fl recording whether
fsync was reached. -/
def writeLoop (len : Nat) : Nat → List WriteRes → Option (Int × Bool)
  | total, [] => if total < len then none else some ((total : Int), true)
  | total, r :: rest =>
    if total < len then
      match r with
      | WriteRes.ok n => writeLoop len (total + n) rest
      | WriteRes.eintr => writeLoop len total rest
      | WriteRes.err => some (-1, false)
    else some ((total : Int), true)

/-- A trace of write outcomes is valid if every successful write reports
at most the number of bytes that were asked for (the write(2) contract):
starting from total bytes already written, each ok n satisfies
total + n ≤ len as the loop advances. -/
def validWriteTrace (len : Nat) : Nat → List WriteRes → Bool
  | _, [] => true
  | total, r :: rest =>
    match r with
    | WriteRes.ok n => decide (total + n ≤ len) && validWriteTrace len (total + n) rest
    | _ => validWriteTrace len total rest

/-- write_to_process (process.c, lines 109-126): NULL handle or invalid
input descriptor yield -1; otherwise run the write loop and, once the
whole buffer is written, fsync (the Boolean) and return the total. -/
def write_to_process (h : Option ProcessHandle)
    (tr : List WriteRes) (len : Nat) : Option (Int × Bool) :=
  match h with
  | none => some (-1, false)
  | some h =>
    if h.input_fd < 0 then some (-1, false)
    else writeLoop len 0 tr

/-- Outcome of the poll(2) call of read_from_output / read_from_error:
failure, timeout, POLLIN set, POLLHUP (and not POLLIN) set, or some other
event. -/
inductive PollRes where
  | err : PollRes
  | timeout : PollRes
  | pollin : PollRes
  | pollhup : PollRes
  | other : PollRes
deriving DecidableEq

/-- Outcome of the read(2) call: a hard failure, or a successful read
returning the given bytes (an empty list is end of file). -/
inductive ReadRes where
  | err : ReadRes
  | bytes : List Char → ReadRes
deriving DecidableEq

/-- The number of bytes a read outcome delivers. -/
def readLen : ReadRes → Nat
  | ReadRes.err => 0
  | ReadRes.bytes d => d.length

/-- The read call and NUL-termination shared by read_from_output,
read_from_error and read_available (process.c, lines 143-147, 170-174,
222-226): on failure return -1; on a positive count store the bytes,
NUL-terminate at the count and return it; on a zero count return 0 with
the buffer untouched by the terminator store. -/
def readBody (rr : ReadRes) (buffer : List Char) : Int × List Char :=
  match rr with
  | ReadRes.err => (-1, buffer)
  | ReadRes.bytes data =>
    if 0 < data.length then
      ((data.length : Int), setNul (writeBytes buffer data) data.length)
    else (0, writeBytes buffer data)

/-- read_from_output (process.c, lines 128-153): guard the handle and the
descriptor, then dispatch on the poll outcome; POLLIN leads to the read,
timeout and POLLHUP return 0, poll failure and other events return -1. -/
def read_from_output (h : Option ProcessHandle) (p : PollRes) (rr : ReadRes)
    (buffer : List Char) (buffer_size : Nat) : Int × List Char :=
  match h with
  | none => (-1, buffer)
  | some h =>
    if h.output_fd < 0 then (-1, buffer)
    else
      match p with
      | PollRes.err => (-1, buffer)
      | PollRes.timeout => (0, buffer)
      | PollRes.pollin => readBody rr buffer
      | PollRes.pollhup => (0, buffer)
      | PollRes.other => (-1, buffer)

/-- read_from_error (process.c, lines 155-180): the same body as
read_from_output on the error descriptor. -/
def read_from_error (h : Option ProcessHandle) (p : PollRes) (rr : ReadRes)
    (buffer : List Char) (buffer_size : Nat) : Int × List Char :=
  match h with
  | none => (-1, buffer)
  | some h =>
    if h.error_fd < 0 then (-1, buffer)
    else
      match p with
      | PollRes.err => (-1, buffer)
      | PollRes.timeout => (0, buffer)
      | PollRes.pollin => readBody rr buffer
      | PollRes.pollhup => (0, buffer)
      | PollRes.other => (-1, buffer)

/-- Outcome of the poll(2) call of read_available over the up to two
registered descriptors: failure, timeout, or readiness flags for
pfds[0] and pfds[1]. -/
inductive Poll2Res where
  | err : Poll2Res
  | timeout : Poll2Res
  | ready : Bool → Bool → Poll2Res
deriving DecidableEq

/-- read_available (process.c, lines 182-231): register the valid read
descriptors, poll them, and read from the first one whose revents holds
POLLIN; the out-parameter source (1 = stdout, 2 = stderr) is the third
component.  With no POLLIN among the ready flags the function falls
through and returns 0. -/
def read_available (h : Option ProcessHandle) (p : Poll2Res) (rr : ReadRes)
    (buffer : List Char) (buffer_size : Nat) : Int × List Char × Option Int :=
  match h with
  | none => (-1, buffer, none)
  | some h =>
    let outOk : Bool := decide (0 ≤ h.output_fd)
    let errOk : Bool := decide (0 ≤ h.error_fd)
    if outOk = false ∧ errOk = false then (-1, buffer, none)
    else
      match p with
      | Poll2Res.err => (-1, buffer, none)
      | Poll2Res.timeout => (0, buffer, none)
      | Poll2Res.ready r0 r1 =>
        if r0 then
          let src : Int := if outOk then 1 else 2
          let res := readBody rr buffer
          (res.1, res.2, some src)
        else if outOk ∧ errOk ∧ r1 then
          let res := readBody rr buffer
          (res.1, res.2, some 2)
        else (0, buffer, none)

/-- Events of a liveness history: the child exits, or the caller probes
with is_running. -/
inductive Evt where
  | childExits : Evt
  | probe : Evt
deriving DecidableEq

/-- Effect of the child exiting on the process-table state. -/
def stepChild : ChildState → ChildState
  | ChildState.running => ChildState.zombie
  | s => s

/-- Run a history of events from a child state, collecting the value
returned by each is_running probe. -/
def runProbes (h : ProcessHandle) : ChildState → List Evt → List Int
  | _, [] => []
  | st, Evt.childExits :: rest => runProbes h (stepChild st) rest
  | st, Evt.probe :: rest =>
    (is_running (some h) st).1 :: runProbes h (is_running (some h) st).2 rest

end Posix

namespace Win

/-- INVALID_HANDLE_VALUE. -/
def invalidHandle : Int := -1

/-- ProcessHandle (process_windows.h): pid, the native process handle and
the three pipe handles. -/
structure ProcessHandle where
  pid : Int
  hProcess : Int
  input_fd : Int
  output_fd : Int
  error_fd : Int
deriving DecidableEq

/-- Outcomes of the OS calls made by the Windows start_process, in
program order: the three CreatePipe calls, the SetHandleInformation
calls, the command-line buffer allocation, CreateProcess, and the malloc
of the handle. -/
structure SpawnEnv where
  pipe1 : Bool
  pipe2 : Bool
  pipe3 : Bool
  inheritOk : Bool
  cmdlineOk : Bool
  createOk : Bool
  mallocOk : Bool
deriving DecidableEq

/-- start_process (process_windows.c, lines 172-293).  Handles are
numbered in allocation order: stdin (rd 0, wr 1), stdout (rd 2, wr 3),
stderr (rd 4, wr 5), the process handle 6, the thread handle 7.  The
second component is the list of handles allocated by this call that are
still open on return: every failure path closes everything it had
allocated before returning NULL. -/
def start_process (e : SpawnEnv) : Option ProcessHandle × List Nat :=
  if ¬ e.pipe1 then (none, [])
  else if ¬ e.pipe2 then (none, [])        -- closes 0, 1
  else if ¬ e.pipe3 then (none, [])        -- closes 0, 1, 2, 3
  else if ¬ e.inheritOk then (none, [])    -- closes 0, 1, 2, 3, 4, 5
  else if ¬ e.cmdlineOk then (none, [])    -- closes 0, 1, 2, 3, 4, 5
  else if ¬ e.createOk then (none, [])     -- closes 0, 3, 5, then 1, 2, 4
  else if ¬ e.mallocOk then (none, [])     -- closes 0, 3, 5, 7, then 1, 2, 4, 6
  else
    (some ⟨200, 6, 1, 2, 4⟩, [1, 2, 4, 6])

/-- close_process (process_windows.c, lines 295-321): close each valid
pipe handle, then TerminateProcess, wait up to 5000 ms, and close the
process handle whatever the wait returned (waitOutcome records whether
the bounded wait succeeded; the sequence of actions does not depend on
it). -/
def close_process (waitOutcome : Bool) (h : Option ProcessHandle) : List CloseEv :=
  match h with
  | none => []
  | some h =>
    (if h.input_fd ≠ invalidHandle then [CloseEv.closeIn] else []) ++
    (if h.output_fd ≠ invalidHandle then [CloseEv.closeOut] else []) ++
    (if h.error_fd ≠ invalidHandle then [CloseEv.closeErr] else []) ++
    (if h.hProcess ≠ invalidHandle then
      [CloseEv.terminate, CloseEv.waitBounded 5000, CloseEv.closeProc]
     else [])

/-- The observable state of the child process on the Windows backend. -/
inductive WinState where
  | active : WinState
  | exited : Nat → WinState
deriving DecidableEq

/-- STILL_ACTIVE. -/
def STILL_ACTIVE : Nat := 259

/-- GetExitCodeProcess: a pure query of the process state; it reports
STILL_ACTIVE while the process runs and the exit code afterwards, and
mutates nothing. -/
def GetExitCodeProcess : WinState → Nat
  | WinState.active => STILL_ACTIVE
  | WinState.exited code => code

/-- is_running (process_windows.c, lines 323-334): 0 for a NULL handle or
an invalid process handle, else compare the exit code with STILL_ACTIVE.
The second component is the process state afterwards; the query does not
change it. -/
def is_running (h : Option ProcessHandle) (st : WinState) : Int × WinState :=
  match h with
  | none => (0, st)
  | some h =>
    if h.hProcess = invalidHandle then (0, st)
    else ((if GetExitCodeProcess st = STILL_ACTIVE then 1 else 0), st)

/-- Outcome of the single WriteFile call of the Windows
write_to_process. -/
inductive WWriteRes where
  | success : Nat → WWriteRes
  | brokenPipe : WWriteRes
  | fail : WWriteRes
deriving DecidableEq

/-- write_to_process (process_windows.c, lines 336-357): one WriteFile;
ERROR_NO_DATA / ERROR_BROKEN_PIPE yield 0 without flushing, any other
failure yields -1, and success flushes and returns the bytes written by
that single call.  The Boolean records whether FlushFileBuffers ran. -/
def write_to_process (h : Option ProcessHandle) (res : WWriteRes) (len : Nat) :
    Int × Bool :=
  match h with
  | none => (-1, false)
  | some h =>
    if h.input_fd = invalidHandle then (-1, false)
    else
      match res with
      | WWriteRes.success n => ((n : Int), true)
      | WWriteRes.brokenPipe => (0, false)
      | WWriteRes.fail => (-1, false)

/-- Outcome of WaitForSingleObject plus GetOverlappedResult in the
pending branch of read_from_handle: the wait completes (with the overlap
result flag and the bytes delivered), times out, or itself fails. -/
inductive WaitRes where
  | obj0 : Bool → List Char → WaitRes
  | timeout : WaitRes
  | failed : WaitRes
deriving DecidableEq

/-- Outcome of the ReadFile call of read_from_handle: event-creation
failure, synchronous success with the given bytes, ERROR_IO_PENDING with
the subsequent wait outcome, ERROR_BROKEN_PIPE, or another error. -/
inductive ReadEv where
  | eventFail : ReadEv
  | syncOk : List Char → ReadEv
  | pending : WaitRes → ReadEv
  | brokenPipe : ReadEv
  | otherErr : ReadEv
deriving DecidableEq

/-- The number of bytes a read outcome can deliver. -/
def readEvLen : ReadEv → Nat
  | ReadEv.syncOk d => d.length
  | ReadEv.pending (WaitRes.obj0 true d) => d.length
  | _ => 0

/-- Conversion of the DWORD bytesRead to the C int return value. -/
def dwordToInt (n : Nat) : Int :=
  if n < 2 ^ 31 then (n : Int) else (n : Int) - 2 ^ 32

/-- The common tail of read_from_handle (process_windows.c, lines
162-169): a positive count stores the bytes and the terminator and is
returned; a zero count returns 0 with the buffer untouched. -/
def readFinish (data buffer : List Char) : Int × List Char :=
  if 0 < data.length then
    ((data.length : Int), setNul (writeBytes buffer data) data.length)
  else (0, buffer)

/-- read_from_handle (process_windows.c, lines 120-170).  A wait timeout
and a wait failure land in the same branch and both return 0; a broken
pipe returns 0; another ReadFile error sets the DWORD bytesRead to
(DWORD)-1 = 2^32 - 1, so the terminator store is out of bounds (a no-op
in the model) and the returned int is -1. -/
def read_from_handle (hValid : Bool) (ev : ReadEv)
    (buffer : List Char) (buffer_size : Nat) : Int × List Char :=
  if ¬ hValid then (-1, buffer)
  else
    match ev with
    | ReadEv.eventFail => (-1, buffer)
    | ReadEv.syncOk data => readFinish data buffer
    | ReadEv.pending w =>
      match w with
      | WaitRes.obj0 true data => readFinish data buffer
      | WaitRes.obj0 false _ => (0, buffer)
      | WaitRes.timeout => (0, buffer)
      | WaitRes.failed => (0, buffer)
    | ReadEv.brokenPipe => (0, buffer)
    | ReadEv.otherErr => (dwordToInt (2 ^ 32 - 1), setNul buffer (2 ^ 32 - 1))

/-- Events of a liveness history on the Windows backend. -/
inductive WEvt where
  | exitWith : Nat → WEvt
  | probe : WEvt
deriving DecidableEq

/-- Effect of the child exiting with the given code. -/
def stepExit (code : Nat) : WinState → WinState
  | WinState.active => WinState.exited code
  | s => s

/-- Run a history of events from a process state, collecting the value
returned by each is_running probe. -/
def runProbes (h : ProcessHandle) : WinState → List WEvt → List Int
  | _, [] => []
  | st, WEvt.exitWith c :: rest => runProbes h (stepExit c st) rest
  | st, WEvt.probe :: rest =>
    (is_running (some h) st).1 :: runProbes h (is_running (some h) st).2 rest

end Win

/-- A concrete valid POSIX handle, as produced by a successful spawn. -/
def pHandle : Posix.ProcessHandle := ⟨100, 1, 2, 4⟩

/-- A concrete valid Windows handle, as produced by a successful spawn. -/
def wHandle : Win.ProcessHandle := ⟨200, 6, 1, 2, 4⟩

/-- Scenario C input: the argument C:\path with space\ as a character
list. -/
def scenC : List Char :=
  ['C', ':', bsl, 'p', 'a', 't', 'h', spc, 'w', 'i', 't', 'h', spc,
   's', 'p', 'a', 'c', 'e', bsl]

/-- Scenario C expected output: the quoted token, which ends in a doubled
backslash before the closing quote. -/
def scenCQuoted : List Char :=
  [qch, 'C', ':', bsl, 'p', 'a', 't', 'h', spc, 'w', 'i', 't', 'h', spc,
   's', 'p', 'a', 'c', 'e', bsl, bsl, qch]

/-- The postcondition of the POSIX reads asserted by the buffer-bound
claim: the return value is at most buffer_size - 1, a positive return n
means the buffer now holds exactly the n read bytes followed by the NUL
terminator at index n, and a zero return leaves the buffer unchanged. -/
def ReadPost (rr : Posix.ReadRes) (buffer : List Char) (bs : Nat)
    (res : Int × List Char) : Prop :=
  res.1 ≤ (bs : Int) - 1 ∧
  (0 < res.1 → ∃ d, rr = Posix.ReadRes.bytes d ∧ (d.length : Int) = res.1 ∧
      res.2 = d ++ nulc :: buffer.drop (d.length + 1)) ∧
  (res.1 = 0 → res.2 = buffer)

/-- The matching postcondition for the Windows read_from_handle. -/
def WinReadPost (ev : Win.ReadEv) (buffer : List Char) (bs : Nat)
    (res : Int × List Char) : Prop :=
  res.1 ≤ (bs : Int) - 1 ∧
  (0 < res.1 → ∃ d,
      (ev = Win.ReadEv.syncOk d ∨ ev = Win.ReadEv.pending (Win.WaitRes.obj0 true d)) ∧
      (d.length : Int) = res.1 ∧ res.2 = d ++ nulc :: buffer.drop (d.length + 1)) ∧
  (res.1 = 0 → res.2 = buffer)

/-! ## Lemmas about the quoting algorithm and the splitting rule -/

lemma contains_true_iff (l : List Char) (a : Char) : l.contains a = true ↔ a ∈ l := by
  simp [List.contains_iff_exists_mem_beq]

lemma contains_false_iff (l : List Char) (a : Char) : l.contains a = false ↔ a ∉ l := by
  rw [← contains_true_iff]
  cases l.contains a <;> simp

lemma quoteRun_cons_bsl (k : Nat) (t : List Char) :
    quoteRun k (bsl :: t) = quoteRun (k + 1) t := by
  simp [quoteRun]

lemma quoteRun_cons_qch (k : Nat) (t : List Char) :
    quoteRun k (qch :: t) = List.replicate (2 * k + 1) bsl ++ qch :: quoteRun 0 t := by
  have h : ¬ (qch = bsl) := by decide
  simp [quoteRun, h]

lemma quoteRun_cons_other (k : Nat) (c : Char) (t : List Char)
    (h1 : c ≠ bsl) (h2 : c ≠ qch) :
    quoteRun k (c :: t) = List.replicate k bsl ++ c :: quoteRun 0 t := by
  simp [quoteRun, h1, h2]

lemma quoteRun_replicate (j : Nat) : ∀ (k : Nat) (t : List Char),
    quoteRun k (List.replicate j bsl ++ t) = quoteRun (k + j) t := by
  induction j with
  | zero => intro k t; simp
  | succ m ih =>
    intro k t
    rw [List.replicate_succ, List.cons_append, quoteRun_cons_bsl, ih]
    have h : k + 1 + m = k + (m + 1) := by omega
    rw [h]

lemma quoteBody_quote (k : Nat) (t : List Char) :
    quoteBody (List.replicate k bsl ++ qch :: t)
      = List.replicate (2 * k + 1) bsl ++ qch :: quoteBody t := by
  unfold quoteBody
  rw [quoteRun_replicate, Nat.zero_add, quoteRun_cons_qch]

lemma quoteBody_end (k : Nat) :
    quoteBody (List.replicate k bsl) = List.replicate (2 * k) bsl := by
  unfold quoteBody
  rw [show List.replicate k bsl = List.replicate k bsl ++ [] by simp,
    quoteRun_replicate, Nat.zero_add]
  rfl

lemma quoteBody_other (k : Nat) (c : Char) (t : List Char)
    (h1 : c ≠ bsl) (h2 : c ≠ qch) :
    quoteBody (List.replicate k bsl ++ c :: t)
      = List.replicate k bsl ++ c :: quoteBody t := by
  unfold quoteBody
  rw [quoteRun_replicate, Nat.zero_add, quoteRun_cons_other k c t h1 h2]

lemma run_decomp (s : List Char) : ∃ k rest,
    s = List.replicate k bsl ++ rest ∧
    (rest = [] ∨ ∃ c t, rest = c :: t ∧ c ≠ bsl) := by
  induction s with
  | nil => exact ⟨0, [], by simp, Or.inl rfl⟩
  | cons c t ih =>
    by_cases hc : c = bsl
    · obtain ⟨k, rest, heq, hr⟩ := ih
      subst hc
      exact ⟨k + 1, rest, by rw [List.replicate_succ, List.cons_append, ← heq], hr⟩
    · exact ⟨0, c :: t, by simp, Or.inr ⟨c, t, rfl, hc⟩⟩

lemma splitAux_nil (inQ st : Bool) (k : Nat) (cur : List Char) :
    splitAux inQ st k cur [] = if st then [cur ++ List.replicate k bsl] else [] := rfl

lemma splitAux_cons_bsl (inQ st : Bool) (k : Nat) (cur t : List Char) :
    splitAux inQ st k cur (bsl :: t) = splitAux inQ true (k + 1) cur t := by
  simp [splitAux]

lemma splitAux_cons_qch (inQ st : Bool) (k : Nat) (cur t : List Char) :
    splitAux inQ st k cur (qch :: t) =
      if k % 2 = 1 then splitAux inQ true 0 (cur ++ List.replicate (k / 2) bsl ++ [qch]) t
      else splitAux (!inQ) true 0 (cur ++ List.replicate (k / 2) bsl) t := by
  have h : ¬ (qch = bsl) := by decide
  simp [splitAux, h]

lemma splitAux_cons_other (inQ st : Bool) (k : Nat) (cur : List Char) (c : Char)
    (t : List Char) (h1 : c ≠ bsl) (h2 : c ≠ qch)
    (h3 : ¬ (inQ = false ∧ (c = spc ∨ c = tabc))) :
    splitAux inQ st k cur (c :: t)
      = splitAux inQ true 0 (cur ++ List.replicate k bsl ++ [c]) t := by
  simp [splitAux, h1, h2, h3]

lemma splitAux_replicate (j : Nat) : ∀ (inQ : Bool) (k : Nat) (cur t : List Char),
    splitAux inQ true k cur (List.replicate j bsl ++ t)
      = splitAux inQ true (k + j) cur t := by
  induction j with
  | zero => intro inQ k cur t; simp
  | succ m ih =>
    intro inQ k cur t
    rw [List.replicate_succ, List.cons_append, splitAux_cons_bsl, ih]
    have h : k + 1 + m = k + (m + 1) := by omega
    rw [h]

lemma splitAux_quoteBody : ∀ (n : Nat) (s : List Char), s.length ≤ n →
    ∀ (cur : List Char),
    splitAux true true 0 cur (quoteBody s ++ [qch]) = [cur ++ s] := by
  intro n
  induction n with
  | zero =>
    intro s hs cur
    have hsnil : s = [] := by
      cases s with
      | nil => rfl
      | cons a t => simp at hs
    subst hsnil
    show splitAux true true 0 cur ([] ++ [qch]) = [cur ++ []]
    rw [List.nil_append, splitAux_cons_qch]
    simp [splitAux_nil]
  | succ m ih =>
    intro s hs cur
    obtain ⟨k, rest, heq, hr⟩ := run_decomp s
    rcases hr with hr | ⟨c, t, hre, hc⟩
    · subst hr
      rw [List.append_nil] at heq
      subst heq
      rw [quoteBody_end, splitAux_replicate, Nat.zero_add, splitAux_cons_qch]
      rw [if_neg (by omega)]
      rw [show 2 * k / 2 = k by omega]
      simp [splitAux_nil]
    · subst hre
      subst heq
      by_cases hq : c = qch
      · subst hq
        rw [quoteBody_quote, List.append_assoc, List.cons_append, splitAux_replicate,
          Nat.zero_add, splitAux_cons_qch, if_pos (by omega),
          show (2 * k + 1) / 2 = k by omega]
        rw [ih t (by simp at hs ⊢; omega) (cur ++ List.replicate k bsl ++ [qch])]
        simp
      · rw [quoteBody_other k c t hc hq, List.append_assoc, List.cons_append,
          splitAux_replicate, Nat.zero_add,
          splitAux_cons_other true true k cur c _ hc hq (by simp)]
        rw [ih t (by simp at hs ⊢; omega) (cur ++ List.replicate k bsl ++ [c])]
        simp

lemma splitAux_plain : ∀ (s : List Char) (k : Nat) (cur : List Char),
    (∀ c ∈ s, c ≠ qch ∧ c ≠ spc ∧ c ≠ tabc) →
    splitAux false true k cur s = [cur ++ List.replicate k bsl ++ s] := by
  intro s
  induction s with
  | nil => intro k cur _; simp [splitAux_nil]
  | cons c t ih =>
    intro k cur h
    by_cases hc : c = bsl
    · subst hc
      rw [splitAux_cons_bsl, ih _ _ (fun x hx => h x (List.mem_cons_of_mem _ hx))]
      rw [List.replicate_succ']
      simp
    · have h0 := h c (List.mem_cons_self c t)
      rw [splitAux_cons_other false true k cur c t hc h0.1
        (by simp [h0.2.1, h0.2.2]), ih _ _ (fun x hx => h x (List.mem_cons_of_mem _ hx))]
      simp

/-! ## Lemmas about buffers and the reads -/

lemma writeBytes_nil (b : List Char) : writeBytes b [] = b := by
  simp [writeBytes]

lemma writeBytes_length (b d : List Char) (h : d.length ≤ b.length) :
    (writeBytes b d).length = b.length := by
  simp [writeBytes]
  omega

lemma setNul_writeBytes : ∀ (d b : List Char), d.length < b.length →
    setNul (writeBytes b d) d.length = d ++ nulc :: b.drop (d.length + 1) := by
  intro d
  induction d with
  | nil =>
    intro b hb
    cases b with
    | nil => simp at hb
    | cons x bt => simp [writeBytes, setNul]
  | cons x xs ih =>
    intro b hb
    cases b with
    | nil => simp at hb
    | cons y bt =>
      have hlen : xs.length < bt.length := by
        simp at hb
        omega
      have hw : (writeBytes bt xs).length = bt.length :=
        writeBytes_length bt xs (le_of_lt hlen)
      have h1 : writeBytes (y :: bt) (x :: xs) = x :: writeBytes bt xs := by
        simp [writeBytes]
      have h2 : setNul (x :: writeBytes bt xs) (xs.length + 1)
          = x :: setNul (writeBytes bt xs) xs.length := by
        unfold setNul
        rw [if_pos (by simp [hw]; omega), if_pos (by rw [hw]; exact hlen)]
        exact List.set_cons_succ x (writeBytes bt xs) xs.length nulc
      simp only [List.length_cons]
      rw [h1, h2, ih bt hlen]
      simp

lemma readBody_spec (rr : Posix.ReadRes) (buffer : List Char) (bs : Nat)
    (hbs : 1 ≤ bs) (hlen : buffer.length = bs) (hd : Posix.readLen rr ≤ bs - 1) :
    ReadPost rr buffer bs (Posix.readBody rr buffer) := by
  cases rr with
  | err =>
    refine ⟨by simp [Posix.readBody], ?_, ?_⟩
    · intro h
      simp [Posix.readBody] at h
    · intro h
      simp [Posix.readBody] at h
  | bytes d =>
    simp only [Posix.readLen] at hd
    by_cases hpos : 0 < d.length
    · have hres : Posix.readBody (Posix.ReadRes.bytes d) buffer
          = ((d.length : Int), setNul (writeBytes buffer d) d.length) := by
        simp [Posix.readBody, hpos]
      rw [hres]
      refine ⟨by simp; omega, ?_, ?_⟩
      · intro _
        exact ⟨d, rfl, rfl, setNul_writeBytes d buffer (by omega)⟩
      · intro h
        simp at h
        subst h
        simp at hpos
    · have hd0 : d = [] := by
        cases d with
        | nil => rfl
        | cons a t => simp at hpos
      subst hd0
      have hres : Posix.readBody (Posix.ReadRes.bytes []) buffer = (0, buffer) := by
        simp [Posix.readBody, writeBytes_nil]
      rw [hres]
      exact ⟨by simp; omega, by intro h; simp at h, fun _ => rfl⟩

lemma readPost_neg (rr : Posix.ReadRes) (buffer : List Char) (bs : Nat) (hbs : 1 ≤ bs) :
    ReadPost rr buffer bs (-1, buffer) := by
  refine ⟨by simp, ?_, ?_⟩
  · intro h
    simp at h
  · intro h
    simp at h

lemma readPost_zero (rr : Posix.ReadRes) (buffer : List Char) (bs : Nat) (hbs : 1 ≤ bs) :
    ReadPost rr buffer bs (0, buffer) := by
  refine ⟨by simp; omega, ?_, fun _ => rfl⟩
  intro h
  simp at h

lemma readFinish_spec (ev : Win.ReadEv) (data buffer : List Char) (bs : Nat)
    (hbs : 1 ≤ bs) (hlen : buffer.length = bs) (hd : data.length ≤ bs - 1)
    (hev : ev = Win.ReadEv.syncOk data ∨ ev = Win.ReadEv.pending (Win.WaitRes.obj0 true data)) :
    WinReadPost ev buffer bs (Win.readFinish data buffer) := by
  by_cases hpos : 0 < data.length
  · have hres : Win.readFinish data buffer
        = ((data.length : Int), setNul (writeBytes buffer data) data.length) := by
      simp [Win.readFinish, hpos]
    rw [hres]
    refine ⟨by simp; omega, ?_, ?_⟩
    · intro _
      exact ⟨data, hev, rfl, setNul_writeBytes data buffer (by omega)⟩
    · intro h
      simp at h
      subst h
      simp at hpos
  · have hres : Win.readFinish data buffer = (0, buffer) := by
      simp [Win.readFinish, hpos]
    rw [hres]
    exact ⟨by simp; omega, by intro h; simp at h, fun _ => rfl⟩

lemma winReadPost_neg (ev : Win.ReadEv) (buffer : List Char) (bs : Nat) (hbs : 1 ≤ bs) :
    WinReadPost ev buffer bs (-1, buffer) := by
  refine ⟨by simp, ?_, ?_⟩
  · intro h
    simp at h
  · intro h
    simp at h

lemma winReadPost_zero (ev : Win.ReadEv) (buffer : List Char) (bs : Nat) (hbs : 1 ≤ bs) :
    WinReadPost ev buffer bs (0, buffer) := by
  refine ⟨by simp; omega, ?_, fun _ => rfl⟩
  intro h
  simp at h

lemma dword_minus_one : Win.dwordToInt (2 ^ 32 - 1) = -1 := by
  norm_num [Win.dwordToInt]

/-! ## Lemmas about the write loop -/

lemma writeLoop_spec : ∀ (tr : List Posix.WriteRes) (total len : Nat) (r : Int) (fl : Bool),
    total ≤ len → Posix.validWriteTrace len total tr = true →
    Posix.writeLoop len total tr = some (r, fl) →
    (r = -1 ∧ fl = false) ∨ (r = (len : Int) ∧ fl = true) := by
  intro tr
  induction tr with
  | nil =>
    intro total len r fl hle hv heq
    by_cases h : total < len
    · simp [Posix.writeLoop, h] at heq
    · simp [Posix.writeLoop, h] at heq
      right
      have htl : total = len := by omega
      subst htl
      exact ⟨heq.1.symm, heq.2⟩
  | cons e rest ih =>
    intro total len r fl hle hv heq
    by_cases h : total < len
    · cases e with
      | ok n =>
        simp [Posix.validWriteTrace, Bool.and_eq_true] at hv
        simp [Posix.writeLoop, h] at heq
        exact ih (total + n) len r fl hv.1 hv.2 heq
      | eintr =>
        simp [Posix.validWriteTrace] at hv
        simp [Posix.writeLoop, h] at heq
        exact ih total len r fl hle hv heq
      | err =>
        simp [Posix.writeLoop, h] at heq
        left
        exact ⟨heq.1.symm, heq.2⟩
    · simp [Posix.writeLoop, h] at heq
      right
      have htl : total = len := by omega
      subst htl
      exact ⟨heq.1.symm, heq.2⟩

/-! ## Lemmas about the liveness probes -/

lemma posix_dead_probe (h : Posix.ProcessHandle) (st : Posix.ChildState)
    (hst : st ≠ Posix.ChildState.running) :
    (Posix.is_running (some h) st).1 = 0 ∧
    (Posix.is_running (some h) st).2 ≠ Posix.ChildState.running := by
  cases st with
  | running => exact absurd rfl hst
  | zombie => refine ⟨by norm_num [Posix.is_running, Posix.waitpid_nohang], by simp [Posix.is_running, Posix.waitpid_nohang]⟩
  | reaped => refine ⟨by norm_num [Posix.is_running, Posix.waitpid_nohang], by simp [Posix.is_running, Posix.waitpid_nohang]⟩

lemma posix_dead_all (hh : Posix.ProcessHandle) :
    ∀ (evs : List Posix.Evt) (st : Posix.ChildState),
      st ≠ Posix.ChildState.running →
      ∀ x ∈ Posix.runProbes hh st evs, x = 0 := by
  intro evs
  induction evs with
  | nil =>
    intro st _ x hx
    simp [Posix.runProbes] at hx
  | cons e rest ih =>
    intro st hst x hx
    cases e with
    | childExits =>
      rw [show Posix.runProbes hh st (Posix.Evt.childExits :: rest)
            = Posix.runProbes hh (Posix.stepChild st) rest from rfl] at hx
      refine ih (Posix.stepChild st) ?_ x hx
      cases st with
      | running => exact absurd rfl hst
      | zombie => simp [Posix.stepChild]
      | reaped => simp [Posix.stepChild]
    | probe =>
      rw [show Posix.runProbes hh st (Posix.Evt.probe :: rest)
            = (Posix.is_running (some hh) st).1
              :: Posix.runProbes hh (Posix.is_running (some hh) st).2 rest from rfl] at hx
      rcases List.mem_cons.mp hx with h1 | h1
      · rw [h1]
        exact (posix_dead_probe hh st hst).1
      · exact ih _ (posix_dead_probe hh st hst).2 x h1

lemma posix_mono_aux (hh : Posix.ProcessHandle) :
    ∀ (evs : List Posix.Evt) (st : Posix.ChildState) (i j : Nat), i < j →
      (Posix.runProbes hh st evs).get? i = some 0 →
      (Posix.runProbes hh st evs).get? j ≠ some 1 := by
  intro evs
  induction evs with
  | nil =>
    intro st i j _ hi
    simp [Posix.runProbes] at hi
  | cons e rest ih =>
    intro st i j hij hi
    cases e with
    | childExits =>
      rw [show Posix.runProbes hh st (Posix.Evt.childExits :: rest)
            = Posix.runProbes hh (Posix.stepChild st) rest from rfl] at hi ⊢
      exact ih _ i j hij hi
    | probe =>
      rw [show Posix.runProbes hh st (Posix.Evt.probe :: rest)
            = (Posix.is_running (some hh) st).1
              :: Posix.runProbes hh (Posix.is_running (some hh) st).2 rest from rfl] at hi ⊢
      cases i with
      | zero =>
        have hd0 : (Posix.is_running (some hh) st).1 = 0 := by
          simpa using hi
        have hstd : st ≠ Posix.ChildState.running := by
          intro hc
          subst hc
          simp [Posix.is_running, Posix.waitpid_nohang] at hd0
        cases j with
        | zero => omega
        | succ j2 =>
          rw [List.get?_cons_succ]
          intro hj
          have hmem : (1 : Int) ∈ Posix.runProbes hh (Posix.is_running (some hh) st).2 rest :=
            List.get?_mem hj
          have h10 := posix_dead_all hh rest _ (posix_dead_probe hh st hstd).2 1 hmem
          norm_num at h10
      | succ i2 =>
        cases j with
        | zero => omega
        | succ j2 =>
          rw [List.get?_cons_succ] at hi ⊢
          exact ih _ i2 j2 (by omega) hi

lemma posix_probes_live (hh : Posix.ProcessHandle) (n : Nat) :
    Posix.runProbes hh Posix.ChildState.running (List.replicate n Posix.Evt.probe)
      = List.replicate n 1 := by
  induction n with
  | zero => rfl
  | succ m ih =>
    rw [List.replicate_succ, List.replicate_succ]
    rw [show Posix.runProbes hh Posix.ChildState.running
          (Posix.Evt.probe :: List.replicate m Posix.Evt.probe)
        = (Posix.is_running (some hh) Posix.ChildState.running).1
          :: Posix.runProbes hh
              (Posix.is_running (some hh) Posix.ChildState.running).2
              (List.replicate m Posix.Evt.probe) from rfl]
    rw [show Posix.is_running (some hh) Posix.ChildState.running
          = (1, Posix.ChildState.running) from by
        simp [Posix.is_running, Posix.waitpid_nohang]]
    rw [ih]

lemma win_is_running_snd (h : Option Win.ProcessHandle) (st : Win.WinState) :
    (Win.is_running h st).2 = st := by
  cases h with
  | none => rfl
  | some hh =>
    simp only [Win.is_running]
    split
    · rfl
    · rfl

lemma win_zero_step (hh : Win.ProcessHandle) (c : Nat) (st : Win.WinState)
    (h0 : (Win.is_running (some hh) st).1 = 0) :
    (Win.is_running (some hh) (Win.stepExit c st)).1 = 0 := by
  by_cases hv : hh.hProcess = Win.invalidHandle
  · simp [Win.is_running, hv]
  · cases st with
    | active =>
      exfalso
      simp [Win.is_running, hv, Win.GetExitCodeProcess] at h0
    | exited code =>
      rw [show Win.stepExit c (Win.WinState.exited code) = Win.WinState.exited code from rfl]
      exact h0

lemma win_dead_all (hh : Win.ProcessHandle) :
    ∀ (evs : List Win.WEvt) (st : Win.WinState),
      (Win.is_running (some hh) st).1 = 0 →
      ∀ x ∈ Win.runProbes hh st evs, x = 0 := by
  intro evs
  induction evs with
  | nil =>
    intro st _ x hx
    simp [Win.runProbes] at hx
  | cons e rest ih =>
    intro st h0 x hx
    cases e with
    | exitWith c =>
      rw [show Win.runProbes hh st (Win.WEvt.exitWith c :: rest)
            = Win.runProbes hh (Win.stepExit c st) rest from rfl] at hx
      exact ih _ (win_zero_step hh c st h0) x hx
    | probe =>
      rw [show Win.runProbes hh st (Win.WEvt.probe :: rest)
            = (Win.is_running (some hh) st).1
              :: Win.runProbes hh (Win.is_running (some hh) st).2 rest from rfl] at hx
      rcases List.mem_cons.mp hx with h1 | h1
      · rw [h1, h0]
      · rw [win_is_running_snd] at h1
        exact ih _ h0 x h1

lemma win_mono_aux (hh : Win.ProcessHandle) :
    ∀ (evs : List Win.WEvt) (st : Win.WinState) (i j : Nat), i < j →
      (Win.runProbes hh st evs).get? i = some 0 →
      (Win.runProbes hh st evs).get? j ≠ some 1 := by
  intro evs
  induction evs with
  | nil =>
    intro st i j _ hi
    simp [Win.runProbes] at hi
  | cons e rest ih =>
    intro st i j hij hi
    cases e with
    | exitWith c =>
      rw [show Win.runProbes hh st (Win.WEvt.exitWith c :: rest)
            = Win.runProbes hh (Win.stepExit c st) rest from rfl] at hi ⊢
      exact ih _ i j hij hi
    | probe =>
      rw [show Win.runProbes hh st (Win.WEvt.probe :: rest)
            = (Win.is_running (some hh) st).1
              :: Win.runProbes hh (Win.is_running (some hh) st).2 rest from rfl] at hi ⊢
      cases i with
      | zero =>
        have hd0 : (Win.is_running (some hh) st).1 = 0 := by
          simpa using hi
        cases j with
        | zero => omega
        | succ j2 =>
          rw [List.get?_cons_succ]
          intro hj
          have hmem : (1 : Int) ∈ Win.runProbes hh (Win.is_running (some hh) st).2 rest :=
            List.get?_mem hj
          rw [win_is_running_snd] at hmem
          have h10 := win_dead_all hh rest st hd0 1 hmem
          norm_num at h10
      | succ i2 =>
        cases j with
        | zero => omega
        | succ j2 =>
          rw [List.get?_cons_succ] at hi ⊢
          exact ih _ i2 j2 (by omega) hi

lemma win_probes_live (hh : Win.ProcessHandle) (hv : hh.hProcess ≠ Win.invalidHandle) (n : Nat) :
    Win.runProbes hh Win.WinState.active (List.replicate n Win.WEvt.probe)
      = List.replicate n 1 := by
  induction n with
  | zero => rfl
  | succ m ih =>
    rw [List.replicate_succ, List.replicate_succ]
    rw [show Win.runProbes hh Win.WinState.active
          (Win.WEvt.probe :: List.replicate m Win.WEvt.probe)
        = (Win.is_running (some hh) Win.WinState.active).1
          :: Win.runProbes hh (Win.is_running (some hh) Win.WinState.active).2
              (List.replicate m Win.WEvt.probe) from rfl]
    rw [show Win.is_running (some hh) Win.WinState.active = (1, Win.WinState.active) from by
        simp [Win.is_running, hv, Win.GetExitCodeProcess]]
    rw [ih]

/-! ## Case analyses of the read operations -/

lemma read_from_output_cases (h : Posix.ProcessHandle) (p : Posix.PollRes)
    (rr : Posix.ReadRes) (buffer : List Char) (bs : Nat) :
    Posix.read_from_output (some h) p rr buffer bs = (-1, buffer) ∨
    Posix.read_from_output (some h) p rr buffer bs = (0, buffer) ∨
    Posix.read_from_output (some h) p rr buffer bs = Posix.readBody rr buffer := by
  by_cases hfd : h.output_fd < 0 <;> cases p <;> simp [Posix.read_from_output, hfd]

lemma read_from_error_cases (h : Posix.ProcessHandle) (p : Posix.PollRes)
    (rr : Posix.ReadRes) (buffer : List Char) (bs : Nat) :
    Posix.read_from_error (some h) p rr buffer bs = (-1, buffer) ∨
    Posix.read_from_error (some h) p rr buffer bs = (0, buffer) ∨
    Posix.read_from_error (some h) p rr buffer bs = Posix.readBody rr buffer := by
  by_cases hfd : h.error_fd < 0 <;> cases p <;> simp [Posix.read_from_error, hfd]

lemma read_available_cases (h : Posix.ProcessHandle) (p : Posix.Poll2Res)
    (rr : Posix.ReadRes) (buffer : List Char) (bs : Nat) :
    Posix.read_available (some h) p rr buffer bs = (-1, buffer, none) ∨
    Posix.read_available (some h) p rr buffer bs = (0, buffer, none) ∨
    (∃ src, Posix.read_available (some h) p rr buffer bs
        = ((Posix.readBody rr buffer).1, (Posix.readBody rr buffer).2, some src)) := by
  unfold Posix.read_available
  by_cases ho : (0 : Int) ≤ h.output_fd <;> by_cases he : (0 : Int) ≤ h.error_fd <;>
    cases p with
  | ready r0 r1 => cases r0 <;> cases r1 <;> simp [ho, he]
  | err => simp [ho, he]
  | timeout => simp [ho, he]

lemma read_from_handle_cases (ev : Win.ReadEv) (buffer : List Char) (bs : Nat) :
    Win.read_from_handle true ev buffer bs = (-1, buffer) ∨
    Win.read_from_handle true ev buffer bs = (0, buffer) ∨
    (∃ data,
      (ev = Win.ReadEv.syncOk data ∨ ev = Win.ReadEv.pending (Win.WaitRes.obj0 true data)) ∧
      Win.read_from_handle true ev buffer bs = Win.readFinish data buffer) ∨
    Win.read_from_handle true ev buffer bs
      = (Win.dwordToInt (2 ^ 32 - 1), setNul buffer (2 ^ 32 - 1)) := by
  cases ev with
  | eventFail => exact Or.inl (by simp [Win.read_from_handle])
  | syncOk d =>
    exact Or.inr (Or.inr (Or.inl ⟨d, Or.inl rfl, by simp [Win.read_from_handle]⟩))
  | pending w =>
    cases w with
    | obj0 ok d =>
      cases ok with
      | true =>
        exact Or.inr (Or.inr (Or.inl ⟨d, Or.inr rfl, by simp [Win.read_from_handle]⟩))
      | false => exact Or.inr (Or.inl (by simp [Win.read_from_handle]))
    | timeout => exact Or.inr (Or.inl (by simp [Win.read_from_handle]))
    | failed => exact Or.inr (Or.inl (by simp [Win.read_from_handle]))
  | brokenPipe => exact Or.inr (Or.inl (by simp [Win.read_from_handle]))
  | otherErr => exact Or.inr (Or.inr (Or.inr (by simp [Win.read_from_handle])))

lemma winReadPost_otherErr (ev : Win.ReadEv) (buffer : List Char) (bs : Nat) (hbs : 1 ≤ bs) :
    WinReadPost ev buffer bs (Win.dwordToInt (2 ^ 32 - 1), setNul buffer (2 ^ 32 - 1)) := by
  refine ⟨?_, ?_, ?_⟩
  · show Win.dwordToInt (2 ^ 32 - 1) ≤ (bs : Int) - 1
    rw [dword_minus_one]
    omega
  · intro h
    rw [show (Win.dwordToInt (2 ^ 32 - 1), setNul buffer (2 ^ 32 - 1)).1
          = Win.dwordToInt (2 ^ 32 - 1) from rfl, dword_minus_one] at h
    exact absurd h (by norm_num)
  · intro h
    rw [show (Win.dwordToInt (2 ^ 32 - 1), setNul buffer (2 ^ 32 - 1)).1
          = Win.dwordToInt (2 ^ 32 - 1) from rfl, dword_minus_one] at h
    exact absurd h (by norm_num)

/-! ## Claim theorems -/

/-- C1: a token requires quoting exactly when it is empty or contains a
space, tab, newline or vertical tab; a quoted token is the body wrapped in
double quotes, where a run of k backslashes immediately before a literal
double quote is emitted as 2k backslashes followed by a backslash-escaped
quote, a run of k backslashes at the end of the token is emitted as 2k
backslashes before the closing quote, and every other character is copied
verbatim; in particular the Scenario C argument quotes to a token ending
in a doubled backslash before the closing quote. -/
theorem C1_quoting (s : List Char) :
    (needs_quoting s = true ↔
      (s = [] ∨ ∃ c ∈ s, c = spc ∨ c = tabc ∨ c = nlc ∨ c = vtc)) ∧
    quote_argument s = qch :: quoteBody s ++ [qch] ∧
    (∀ (k : Nat) (t : List Char),
      quoteBody (List.replicate k bsl ++ qch :: t)
        = List.replicate (2 * k) bsl ++ bsl :: qch :: quoteBody t) ∧
    (∀ k : Nat, quoteBody (List.replicate k bsl) = List.replicate (2 * k) bsl) ∧
    (∀ (k : Nat) (c : Char) (t : List Char), c ≠ bsl → c ≠ qch →
      quoteBody (List.replicate k bsl ++ c :: t)
        = List.replicate k bsl ++ c :: quoteBody t) ∧
    quote_argument scenC = scenCQuoted := by
  refine ⟨⟨?_, ?_⟩, rfl, ?_, quoteBody_end, quoteBody_other, by decide⟩
  · intro hh
    simp only [needs_quoting, Bool.or_eq_true, contains_true_iff,
      List.isEmpty_iff] at hh
    rcases hh with (((h | h) | h) | h) | h
    · exact Or.inr ⟨spc, h, Or.inl rfl⟩
    · exact Or.inr ⟨tabc, h, Or.inr (Or.inl rfl)⟩
    · exact Or.inr ⟨nlc, h, Or.inr (Or.inr (Or.inl rfl))⟩
    · exact Or.inr ⟨vtc, h, Or.inr (Or.inr (Or.inr rfl))⟩
    · exact Or.inl h
  · intro hh
    simp only [needs_quoting, Bool.or_eq_true, contains_true_iff, List.isEmpty_iff]
    rcases hh with h | ⟨c, hc, hd⟩
    · exact Or.inr h
    · rcases hd with rfl | rfl | rfl | rfl
      · exact Or.inl (Or.inl (Or.inl (Or.inl hc)))
      · exact Or.inl (Or.inl (Or.inl (Or.inr hc)))
      · exact Or.inl (Or.inl (Or.inr hc))
      · exact Or.inl (Or.inr hc)
  · intro k t
    rw [quoteBody_quote, List.replicate_succ' (2 * k) bsl]
    simp

/-- Witness for C1: the run-transformation equation evaluated at a
concrete backslash run followed by an ordinary character. -/
theorem C1_quoting_witness :
    quoteBody (List.replicate 1 bsl ++ 'a' :: [])
      = List.replicate 1 bsl ++ 'a' :: quoteBody [] :=
  (C1_quoting []).2.2.2.2.1 1 'a' [] (by decide) (by decide)

/-- C2: the Windows start_process closes every handle it allocated on
every failure path, but the POSIX start_process leaks the already
allocated pipe descriptors when a later pipe(2) call or fork fails: with
the second pipe call failing, descriptors 0 and 1 stay open while NULL is
returned. -/
theorem C2_spawn_leak :
    (Posix.start_process ⟨true, false, true, true, true⟩).1 = none ∧
    (Posix.start_process ⟨true, false, true, true, true⟩).2 = [0, 1] ∧
    (Posix.start_process ⟨true, true, true, false, true⟩).2 = [0, 1, 2, 3, 4, 5] ∧
    (∀ e : Win.SpawnEnv, (Win.start_process e).1 = none → (Win.start_process e).2 = []) := by
  refine ⟨by decide, by decide, by decide, ?_⟩
  intro e h
  rcases e with ⟨p1, p2, p3, ihq, cm, cr, ml⟩
  cases p1 <;> cases p2 <;> cases p3 <;> cases ihq <;> cases cm <;> cases cr <;> cases ml <;>
    simp_all [Win.start_process]

/-- Witness for C2: the Windows no-leak statement evaluated at a failing
environment. -/
theorem C2_spawn_leak_witness :
    (Win.start_process ⟨false, true, true, true, true, true, true⟩).2 = [] :=
  C2_spawn_leak.2.2.2 ⟨false, true, true, true, true, true, true⟩ (by decide)

/-- C3 counterexample: on the Windows backend a write to a closed pipe
returns 0, which is neither the hard-error value -1 nor the full length
5, refuting the claim that every non-error return equals the full
length. -/
theorem C3_counterexample :
    Win.write_to_process (some wHandle) Win.WWriteRes.brokenPipe 5 = (0, false) ∧
    ¬ ((0 : Int) = -1) ∧ ¬ ((0 : Int) = 5) := by
  refine ⟨?_, by norm_num, by norm_num⟩
  simp [Win.write_to_process, wHandle, Win.invalidHandle]

/-- C3 amended: on the POSIX backend, write_to_process loops over partial
writes, retries on EINTR, and, for every valid trace of write outcomes
that lets the loop finish, either returns -1 without flushing (hard
error) or returns exactly the full length after flushing; on the Windows
backend the call performs a single WriteFile: a closed pipe yields 0
without flushing, any other failure yields -1, and success returns the
byte count of that single call after flushing. -/
theorem C3_write_full :
    (∀ (h : Posix.ProcessHandle) (tr : List Posix.WriteRes) (len : Nat) (r : Int) (fl : Bool),
      0 ≤ h.input_fd → Posix.validWriteTrace len 0 tr = true →
      Posix.write_to_process (some h) tr len = some (r, fl) →
      (r = -1 ∧ fl = false) ∨ (r = (len : Int) ∧ fl = true)) ∧
    (∀ (h : Win.ProcessHandle) (len : Nat), h.input_fd ≠ Win.invalidHandle →
      Win.write_to_process (some h) Win.WWriteRes.brokenPipe len = (0, false)) ∧
    (∀ (h : Win.ProcessHandle) (len n : Nat), h.input_fd ≠ Win.invalidHandle →
      Win.write_to_process (some h) (Win.WWriteRes.success n) len = ((n : Int), true)) ∧
    (∀ (h : Win.ProcessHandle) (len : Nat), h.input_fd ≠ Win.invalidHandle →
      Win.write_to_process (some h) Win.WWriteRes.fail len = (-1, false)) := by
  refine ⟨?_, ?_, ?_, ?_⟩
  · intro h tr len r fl hfd hv heq
    rw [show Posix.write_to_process (some h) tr len
          = if h.input_fd < 0 then some (-1, false) else Posix.writeLoop len 0 tr from rfl,
      if_neg (by omega)] at heq
    exact writeLoop_spec tr 0 len r fl (Nat.zero_le len) hv heq
  · intro h len hfd
    simp [Win.write_to_process, hfd]
  · intro h len n hfd
    simp [Win.write_to_process, hfd]
  · intro h len hfd
    simp [Win.write_to_process, hfd]

/-- Witness for C3: the POSIX full-write statement at a concrete trace
writing 2 bytes in one call, and the Windows closed-pipe statement at a
concrete handle. -/
theorem C3_write_full_witness :
    (((2 : Int) = -1 ∧ true = false) ∨ ((2 : Int) = ((2 : Nat) : Int) ∧ true = true)) ∧
    Win.write_to_process (some wHandle) Win.WWriteRes.brokenPipe 3 = (0, false) :=
  ⟨C3_write_full.1 pHandle [Posix.WriteRes.ok 2] 2 2 true (by decide) (by decide) (by decide),
   C3_write_full.2.1 wHandle 3 (by decide)⟩

/-- C4 counterexample: a timed-out read returns the non-negative count 0
but writes no terminator, so the caller's buffer does not hold a NUL at
index 0 as the claim requires for every non-negative return. -/
theorem C4_counterexample :
    Posix.read_from_output (some pHandle) Posix.PollRes.timeout
        (Posix.ReadRes.bytes []) ['a'] 1 = (0, ['a']) ∧
    ¬ ((Posix.read_from_output (some pHandle) Posix.PollRes.timeout
        (Posix.ReadRes.bytes []) ['a'] 1).2.get? 0 = some nulc) := by
  decide

/-- C4 amended: every read operation returns at most buffer_size - 1
bytes; a positive return n means the buffer holds exactly the n read
bytes followed by a NUL terminator at index n; a zero return (timeout or
end of stream) leaves the buffer unchanged, with no terminator
written. -/
theorem C4_read_bounded :
    (∀ (h : Posix.ProcessHandle) (p : Posix.PollRes) (rr : Posix.ReadRes)
        (buffer : List Char) (bs : Nat),
      1 ≤ bs → buffer.length = bs → Posix.readLen rr ≤ bs - 1 →
      ReadPost rr buffer bs (Posix.read_from_output (some h) p rr buffer bs)) ∧
    (∀ (h : Posix.ProcessHandle) (p : Posix.PollRes) (rr : Posix.ReadRes)
        (buffer : List Char) (bs : Nat),
      1 ≤ bs → buffer.length = bs → Posix.readLen rr ≤ bs - 1 →
      ReadPost rr buffer bs (Posix.read_from_error (some h) p rr buffer bs)) ∧
    (∀ (h : Posix.ProcessHandle) (p : Posix.Poll2Res) (rr : Posix.ReadRes)
        (buffer : List Char) (bs : Nat),
      1 ≤ bs → buffer.length = bs → Posix.readLen rr ≤ bs - 1 →
      ReadPost rr buffer bs ((Posix.read_available (some h) p rr buffer bs).1,
        (Posix.read_available (some h) p rr buffer bs).2.1)) ∧
    (∀ (ev : Win.ReadEv) (buffer : List Char) (bs : Nat),
      1 ≤ bs → buffer.length = bs → Win.readEvLen ev ≤ bs - 1 →
      WinReadPost ev buffer bs (Win.read_from_handle true ev buffer bs)) := by
  refine ⟨?_, ?_, ?_, ?_⟩
  · intro h p rr buffer bs hbs hlen hd
    rcases read_from_output_cases h p rr buffer bs with hc | hc | hc <;> rw [hc]
    · exact readPost_neg rr buffer bs hbs
    · exact readPost_zero rr buffer bs hbs
    · exact readBody_spec rr buffer bs hbs hlen hd
  · intro h p rr buffer bs hbs hlen hd
    rcases read_from_error_cases h p rr buffer bs with hc | hc | hc <;> rw [hc]
    · exact readPost_neg rr buffer bs hbs
    · exact readPost_zero rr buffer bs hbs
    · exact readBody_spec rr buffer bs hbs hlen hd
  · intro h p rr buffer bs hbs hlen hd
    rcases read_available_cases h p rr buffer bs with hc | hc | ⟨src, hc⟩ <;> rw [hc]
    · exact readPost_neg rr buffer bs hbs
    · exact readPost_zero rr buffer bs hbs
    · exact readBody_spec rr buffer bs hbs hlen hd
  · intro ev buffer bs hbs hlen hd
    rcases read_from_handle_cases ev buffer bs with hc | hc | ⟨data, hev, hc⟩ | hc <;> rw [hc]
    · exact winReadPost_neg ev buffer bs hbs
    · exact winReadPost_zero ev buffer bs hbs
    · refine readFinish_spec ev data buffer bs hbs hlen ?_ hev
      rcases hev with rfl | rfl
      · simpa [Win.readEvLen] using hd
      · simpa [Win.readEvLen] using hd
    · exact winReadPost_otherErr ev buffer bs hbs

/-- Witness for C4: the four read statements evaluated at concrete
handles, buffers and read outcomes. -/
theorem C4_read_bounded_witness :
    ReadPost (Posix.ReadRes.bytes ['a']) ['x', 'y'] 2
      (Posix.read_from_output (some pHandle) Posix.PollRes.pollin
        (Posix.ReadRes.bytes ['a']) ['x', 'y'] 2) ∧
    ReadPost (Posix.ReadRes.bytes ['a']) ['x', 'y'] 2
      (Posix.read_from_error (some pHandle) Posix.PollRes.pollin
        (Posix.ReadRes.bytes ['a']) ['x', 'y'] 2) ∧
    ReadPost (Posix.ReadRes.bytes ['a']) ['x', 'y'] 2
      ((Posix.read_available (some pHandle) (Posix.Poll2Res.ready true false)
          (Posix.ReadRes.bytes ['a']) ['x', 'y'] 2).1,
        (Posix.read_available (some pHandle) (Posix.Poll2Res.ready true false)
          (Posix.ReadRes.bytes ['a']) ['x', 'y'] 2).2.1) ∧
    WinReadPost (Win.ReadEv.syncOk ['a']) ['x', 'y'] 2
      (Win.read_from_handle true (Win.ReadEv.syncOk ['a']) ['x', 'y'] 2) :=
  ⟨C4_read_bounded.1 pHandle Posix.PollRes.pollin (Posix.ReadRes.bytes ['a'])
      ['x', 'y'] 2 (by decide) (by decide) (by decide),
   C4_read_bounded.2.1 pHandle Posix.PollRes.pollin (Posix.ReadRes.bytes ['a'])
      ['x', 'y'] 2 (by decide) (by decide) (by decide),
   C4_read_bounded.2.2.1 pHandle (Posix.Poll2Res.ready true false)
      (Posix.ReadRes.bytes ['a']) ['x', 'y'] 2 (by decide) (by decide) (by decide),
   C4_read_bounded.2.2.2 (Win.ReadEv.syncOk ['a']) ['x', 'y'] 2
      (by decide) (by decide) (by decide)⟩

/-- C5 counterexample: on the Windows backend a failure of the wait
primitive itself (WaitForSingleObject returning WAIT_FAILED) lands in the
same branch as a timeout and returns 0, not the hard-error value -1 the
claim requires for any wait-primitive failure. -/
theorem C5_counterexample :
    Win.read_from_handle true (Win.ReadEv.pending Win.WaitRes.failed) [nulc] 1
      = (0, [nulc]) ∧
    ¬ ((0 : Int) = -1) := by
  refine ⟨by simp [Win.read_from_handle], by norm_num⟩

/-- C5 amended: a timeout and end-of-stream (a read delivering zero
bytes, or POLLHUP / a broken pipe) all return the indistinguishable
zero-length result 0; a POSIX poll failure, a read failure, a Windows
event-creation failure and a Windows ReadFile error other than a broken
pipe all return the hard error -1; but on the Windows backend a failure
of the wait primitive itself is handled like a timeout and returns 0. -/
theorem C5_timeout_eof :
    (∀ (h : Posix.ProcessHandle) (rr : Posix.ReadRes) (buffer : List Char) (bs : Nat),
      0 ≤ h.output_fd →
      Posix.read_from_output (some h) Posix.PollRes.timeout rr buffer bs = (0, buffer) ∧
      Posix.read_from_output (some h) Posix.PollRes.pollin
        (Posix.ReadRes.bytes []) buffer bs = (0, buffer) ∧
      Posix.read_from_output (some h) Posix.PollRes.pollhup rr buffer bs = (0, buffer) ∧
      Posix.read_from_output (some h) Posix.PollRes.err rr buffer bs = (-1, buffer) ∧
      Posix.read_from_output (some h) Posix.PollRes.pollin
        Posix.ReadRes.err buffer bs = (-1, buffer)) ∧
    (∀ (h : Posix.ProcessHandle) (rr : Posix.ReadRes) (buffer : List Char) (bs : Nat),
      0 ≤ h.error_fd →
      Posix.read_from_error (some h) Posix.PollRes.timeout rr buffer bs = (0, buffer) ∧
      Posix.read_from_error (some h) Posix.PollRes.pollin
        (Posix.ReadRes.bytes []) buffer bs = (0, buffer) ∧
      Posix.read_from_error (some h) Posix.PollRes.pollhup rr buffer bs = (0, buffer) ∧
      Posix.read_from_error (some h) Posix.PollRes.err rr buffer bs = (-1, buffer) ∧
      Posix.read_from_error (some h) Posix.PollRes.pollin
        Posix.ReadRes.err buffer bs = (-1, buffer)) ∧
    (∀ (buffer : List Char) (bs : Nat),
      Win.read_from_handle true (Win.ReadEv.pending Win.WaitRes.timeout) buffer bs
        = (0, buffer) ∧
      Win.read_from_handle true Win.ReadEv.brokenPipe buffer bs = (0, buffer) ∧
      Win.read_from_handle true (Win.ReadEv.syncOk []) buffer bs = (0, buffer) ∧
      Win.read_from_handle true (Win.ReadEv.pending Win.WaitRes.failed) buffer bs
        = (0, buffer) ∧
      (Win.read_from_handle true Win.ReadEv.otherErr buffer bs).1 = -1 ∧
      Win.read_from_handle true Win.ReadEv.eventFail buffer bs = (-1, buffer)) := by
  refine ⟨?_, ?_, ?_⟩
  · intro h rr buffer bs hfd
    have hlt : ¬ (h.output_fd < 0) := by omega
    refine ⟨by simp [Posix.read_from_output, hlt], ?_,
      by simp [Posix.read_from_output, hlt],
      by simp [Posix.read_from_output, hlt],
      by simp [Posix.read_from_output, hlt, Posix.readBody]⟩
    simp [Posix.read_from_output, hlt, Posix.readBody, writeBytes_nil]
  · intro h rr buffer bs hfd
    have hlt : ¬ (h.error_fd < 0) := by omega
    refine ⟨by simp [Posix.read_from_error, hlt], ?_,
      by simp [Posix.read_from_error, hlt],
      by simp [Posix.read_from_error, hlt],
      by simp [Posix.read_from_error, hlt, Posix.readBody]⟩
    simp [Posix.read_from_error, hlt, Posix.readBody, writeBytes_nil]
  · intro buffer bs
    refine ⟨by simp [Win.read_from_handle], by simp [Win.read_from_handle],
      by simp [Win.read_from_handle, Win.readFinish],
      by simp [Win.read_from_handle], ?_, by simp [Win.read_from_handle]⟩
    rw [show Win.read_from_handle true Win.ReadEv.otherErr buffer bs
          = (Win.dwordToInt (2 ^ 32 - 1), setNul buffer (2 ^ 32 - 1)) from by
        simp [Win.read_from_handle]]
    exact dword_minus_one

/-- Witness for C5: the timeout and end-of-stream statements evaluated at
a concrete handle. -/
theorem C5_timeout_eof_witness :
    Posix.read_from_output (some pHandle) Posix.PollRes.timeout
        Posix.ReadRes.err [nulc] 1 = (0, [nulc]) ∧
    Posix.read_from_error (some pHandle) Posix.PollRes.timeout
        Posix.ReadRes.err [nulc] 1 = (0, [nulc]) :=
  ⟨(C5_timeout_eof.1 pHandle Posix.ReadRes.err [nulc] 1 (by decide)).1,
   (C5_timeout_eof.2.1 pHandle Posix.ReadRes.err [nulc] 1 (by decide)).1⟩

/-- C6 counterexample: probing an exited child with is_running on the
POSIX backend consumes the exit status (waitpid with WNOHANG reaps the
zombie), so the observable process state does change, refuting the claim
that the probe is side-effect free. -/
theorem C6_counterexample :
    ¬ ((Posix.is_running (some pHandle) Posix.ChildState.zombie).2
        = Posix.ChildState.zombie) := by
  decide

/-- C6 amended: the POSIX is_running leaves a running child unchanged and
returns 1, but on an exited child it returns 0 and reaps the status, so
the wait performed by a subsequent close_process fails with -1 instead of
reaping; the Windows probe is a pure query that never changes the process
state. -/
theorem C6_probe_effects :
    (∀ h : Posix.ProcessHandle,
      Posix.is_running (some h) Posix.ChildState.running
        = (1, Posix.ChildState.running)) ∧
    (∀ h : Posix.ProcessHandle,
      Posix.is_running (some h) Posix.ChildState.zombie
        = (0, Posix.ChildState.reaped)) ∧
    (∀ h : Posix.ProcessHandle,
      Posix.is_running (some h) Posix.ChildState.reaped
        = (0, Posix.ChildState.reaped)) ∧
    Posix.waitpid_block Posix.ChildState.reaped = (-1, Posix.ChildState.reaped) ∧
    (∀ (h : Option Win.ProcessHandle) (st : Win.WinState), (Win.is_running h st).2 = st) := by
  refine ⟨?_, ?_, ?_, rfl, win_is_running_snd⟩
  · intro h
    simp [Posix.is_running, Posix.waitpid_nohang]
  · intro h
    norm_num [Posix.is_running, Posix.waitpid_nohang]
  · intro h
    norm_num [Posix.is_running, Posix.waitpid_nohang]

/-- C7: close_process closes the three endpoints first and only then
reclaims the process; the POSIX backend then blocks in a wait without
ever terminating the child, while the Windows backend terminates the
process, waits at most 5000 ms, and closes the native process handle
regardless of the wait outcome. -/
theorem C7_close_order :
    (∀ h : Posix.ProcessHandle, 0 ≤ h.input_fd → 0 ≤ h.output_fd → 0 ≤ h.error_fd →
      Posix.close_process (some h)
        = [CloseEv.closeIn, CloseEv.closeOut, CloseEv.closeErr, CloseEv.waitChild]) ∧
    (∀ h : Option Posix.ProcessHandle, CloseEv.terminate ∉ Posix.close_process h) ∧
    (∀ (w : Bool) (h : Win.ProcessHandle), h.input_fd ≠ Win.invalidHandle →
      h.output_fd ≠ Win.invalidHandle → h.error_fd ≠ Win.invalidHandle →
      h.hProcess ≠ Win.invalidHandle →
      Win.close_process w (some h)
        = [CloseEv.closeIn, CloseEv.closeOut, CloseEv.closeErr,
           CloseEv.terminate, CloseEv.waitBounded 5000, CloseEv.closeProc]) ∧
    (∀ (w1 w2 : Bool) (h : Option Win.ProcessHandle),
      Win.close_process w1 h = Win.close_process w2 h) := by
  refine ⟨?_, ?_, ?_, fun w1 w2 h => rfl⟩
  · intro h h1 h2 h3
    simp [Posix.close_process, h1, h2, h3]
  · intro h
    cases h with
    | none => simp [Posix.close_process]
    | some hh =>
      simp only [Posix.close_process]
      split_ifs <;> decide
  · intro w h h1 h2 h3 h4
    simp [Win.close_process, h1, h2, h3, h4]

/-- Witness for C7: the teardown traces of the concrete fully valid
handles. -/
theorem C7_close_order_witness :
    Posix.close_process (some pHandle)
      = [CloseEv.closeIn, CloseEv.closeOut, CloseEv.closeErr, CloseEv.waitChild] ∧
    Win.close_process true (some wHandle)
      = [CloseEv.closeIn, CloseEv.closeOut, CloseEv.closeErr,
         CloseEv.terminate, CloseEv.waitBounded 5000, CloseEv.closeProc] :=
  ⟨C7_close_order.1 pHandle (by decide) (by decide) (by decide),
   C7_close_order.2.2.1 true wHandle (by decide) (by decide) (by decide) (by decide)⟩

/-- C9: on both backends is_running answers 1 on every probe while the
child has not exited, and once a probe has answered 0 no later probe on
the same handle ever answers 1 again. -/
theorem C9_liveness_monotone :
    (∀ (h : Posix.ProcessHandle) (n : Nat),
      Posix.runProbes h Posix.ChildState.running (List.replicate n Posix.Evt.probe)
        = List.replicate n 1) ∧
    (∀ (h : Posix.ProcessHandle) (evs : List Posix.Evt) (i j : Nat), i < j →
      (Posix.runProbes h Posix.ChildState.running evs).get? i = some 0 →
      (Posix.runProbes h Posix.ChildState.running evs).get? j ≠ some 1) ∧
    (∀ (h : Win.ProcessHandle) (n : Nat), h.hProcess ≠ Win.invalidHandle →
      Win.runProbes h Win.WinState.active (List.replicate n Win.WEvt.probe)
        = List.replicate n 1) ∧
    (∀ (h : Win.ProcessHandle) (evs : List Win.WEvt) (i j : Nat), i < j →
      (Win.runProbes h Win.WinState.active evs).get? i = some 0 →
      (Win.runProbes h Win.WinState.active evs).get? j ≠ some 1) :=
  ⟨fun h n => posix_probes_live h n,
   fun h evs i j hij hi => posix_mono_aux h evs Posix.ChildState.running i j hij hi,
   fun h n hv => win_probes_live h hv n,
   fun h evs i j hij hi => win_mono_aux h evs Win.WinState.active i j hij hi⟩

/-- Witness for C9: a history where the child exits and two probes
follow, and an all-probe history, evaluated concretely. -/
theorem C9_liveness_monotone_witness :
    (Posix.runProbes pHandle Posix.ChildState.running
        [Posix.Evt.childExits, Posix.Evt.probe, Posix.Evt.probe]).get? 1 ≠ some 1 ∧
    Win.runProbes wHandle Win.WinState.active (List.replicate 2 Win.WEvt.probe)
      = List.replicate 2 1 ∧
    (Win.runProbes wHandle Win.WinState.active
        [Win.WEvt.exitWith 0, Win.WEvt.probe, Win.WEvt.probe]).get? 1 ≠ some 1 :=
  ⟨C9_liveness_monotone.2.1 pHandle
      [Posix.Evt.childExits, Posix.Evt.probe, Posix.Evt.probe] 0 1 (by decide) (by decide),
   C9_liveness_monotone.2.2.1 wHandle 2 (by decide),
   C9_liveness_monotone.2.2.2 wHandle
      [Win.WEvt.exitWith 0, Win.WEvt.probe, Win.WEvt.probe] 0 1 (by decide) (by decide)⟩

/-- C10: every public operation is total on a NULL handle: close_process
is a no-op, is_running answers 0, and the write and read operations
answer -1 without touching the buffer. -/
theorem C10_null_total :
    Posix.close_process none = [] ∧
    (∀ st : Posix.ChildState, Posix.is_running none st = (0, st)) ∧
    (∀ (tr : List Posix.WriteRes) (len : Nat),
      Posix.write_to_process none tr len = some (-1, false)) ∧
    (∀ (p : Posix.PollRes) (rr : Posix.ReadRes) (buffer : List Char) (bs : Nat),
      Posix.read_from_output none p rr buffer bs = (-1, buffer)) ∧
    (∀ (p : Posix.PollRes) (rr : Posix.ReadRes) (buffer : List Char) (bs : Nat),
      Posix.read_from_error none p rr buffer bs = (-1, buffer)) ∧
    (∀ (p : Posix.Poll2Res) (rr : Posix.ReadRes) (buffer : List Char) (bs : Nat),
      Posix.read_available none p rr buffer bs = (-1, buffer, none)) ∧
    (∀ w : Bool, Win.close_process w none = []) ∧
    (∀ st : Win.WinState, Win.is_running none st = (0, st)) ∧
    (∀ (res : Win.WWriteRes) (len : Nat), Win.write_to_process none res len = (-1, false)) :=
  ⟨rfl, fun st => rfl, fun tr len => rfl, fun p rr buffer bs => rfl,
   fun p rr buffer bs => rfl, fun p rr buffer bs => rfl, fun w => rfl,
   fun st => rfl, fun res len => rfl⟩

/-- C8 counterexample: an argument containing a double quote but no
whitespace is emitted verbatim (needs_quoting does not fire), and the
standard splitting rule then strips the quote, so parsing does not give
back the original string. -/
theorem C8_counterexample :
    winSplit (emitToken ['a', qch, 'b']) = [['a', 'b']] ∧
    ¬ (winSplit (emitToken ['a', qch, 'b']) = [['a', qch, 'b']]) := by
  decide

/-- C8 amended: parsing the emitted token with the standard Windows
argument-splitting rule yields back the original argument for every
argument that is quoted (empty or containing whitespace), and for every
unquoted argument that contains no double-quote character; an unquoted
argument containing a double quote is not recovered. -/
theorem C8_roundtrip :
    (∀ s : List Char, needs_quoting s = true → winSplit (emitToken s) = [s]) ∧
    (∀ s : List Char, needs_quoting s = false → qch ∉ s → winSplit (emitToken s) = [s]) := by
  constructor
  · intro s hq
    rw [emitToken, if_pos hq]
    show splitAux false false 0 [] (qch :: (quoteBody s ++ [qch])) = [s]
    rw [splitAux_cons_qch]
    norm_num
    have := splitAux_quoteBody s.length s le_rfl []
    simpa using this
  · intro s hq hqch
    rw [emitToken, if_neg (by simp [hq])]
    simp only [needs_quoting, Bool.or_eq_false_iff, contains_false_iff] at hq
    have hsp : spc ∉ s := hq.1.1.1.1
    have htb : tabc ∉ s := hq.1.1.1.2
    have hne : s ≠ [] := by
      intro hc
      subst hc
      simp at hq
    obtain ⟨c, t, rfl⟩ : ∃ c t, s = c :: t := by
      cases s with
      | nil => exact absurd rfl hne
      | cons c t => exact ⟨c, t, rfl⟩
    have hall : ∀ x ∈ c :: t, x ≠ qch ∧ x ≠ spc ∧ x ≠ tabc := by
      intro x hx
      exact ⟨fun hc2 => hqch (hc2 ▸ hx), fun hc2 => hsp (hc2 ▸ hx),
        fun hc2 => htb (hc2 ▸ hx)⟩
    show splitAux false false 0 [] (c :: t) = [c :: t]
    by_cases hc : c = bsl
    · subst hc
      rw [splitAux_cons_bsl,
        splitAux_plain t 1 [] (fun x hx => hall x (List.mem_cons_of_mem _ hx))]
      simp [List.replicate]
    · have h0 := hall c (List.mem_cons_self c t)
      rw [splitAux_cons_other false false 0 [] c t hc h0.1 (by simp [h0.2.1, h0.2.2]),
        splitAux_plain t 0 ([] ++ List.replicate 0 bsl ++ [c])
          (fun x hx => hall x (List.mem_cons_of_mem _ hx))]
      simp

/-- Witness for C8: the round trip evaluated at a quoted argument (a
single space) and at an unquoted argument without quote characters. -/
theorem C8_roundtrip_witness :
    winSplit (emitToken [spc]) = [[spc]] ∧ winSplit (emitToken ['a']) = [['a']] :=
  ⟨C8_roundtrip.1 [spc] (by decide), C8_roundtrip.2 ['a'] (by decide) (by decide)⟩
